import Mathlib

/-!
Shallow embedding of `cmd/diff.go` from the ksonnet repository: the `diff`
command's argument handling (`diffCmd.RunE`), environment-locator validation
and diff-mode resolution (`initDiffCmd`, `initDiffSingleEnv`,
`initDiffLocalCmd`, `initDiffRemotesCmd`, `initDiffRemoteCmd`) and the
manifest-expansion pipeline (`expandEnvObjs`).

External collaborators (the metadata manager, the jsonnet template expander,
kubeconfig/client construction, `os.Getwd`, flag lookup and the diff `Run`
itself) are modelled as oracle functions collected in a `World` record; each
embedded function additionally returns the ordered list of collaborator
`Event`s it performed, so that claims of the form "fails before any
filesystem or network work" become statements about the returned trace.
-/

set_option autoImplicit false
set_option maxRecDepth 8192

namespace KsDiff

/-- Character-level model of Go `strings.HasPrefix`: does the first list start
with the second? -/
def listStartsWith : List Char → List Char → Bool
  | _, [] => true
  | [], _ :: _ => false
  | c :: cs, p :: ps => c == p && listStartsWith cs ps

/-- Go `strings.HasPrefix s pre`. -/
def strStartsWith (s pre : String) : Bool :=
  listStartsWith s.data pre.data

/-- Character-level core of Go `strings.SplitN(s, sep, 2)`: everything before
the first `sep` (accumulated reversed in `acc`), then the raw remainder. -/
def splitN2Chars (sep : Char) : List Char → List Char → List (List Char)
  | [], acc => [acc.reverse]
  | c :: cs, acc => if c = sep then [acc.reverse, cs] else splitN2Chars sep cs (c :: acc)

/-- Go `strings.SplitN(s, sep, 2)` for a one-character separator. -/
def goSplitN2 (sep : Char) (s : String) : List String :=
  (splitN2Chars sep s.data []).map String.mk

/-- Go `strings.SplitN(s, ":", 2)` exactly as used on locators in `initDiffCmd`. -/
def splitN2 (s : String) : List String :=
  goSplitN2 ':' s

/-- The caller-visible state of the template expander created by
`newExpander(cmd)`: the `-J` search paths and `--ext-code` fragments supplied
on the command line (`template.Expander.FlagJpath` / `.ExtCodes`). -/
structure Expander where
  flagJpath : List String
  extCodes : List String
  deriving DecidableEq, Repr

/-- The five paths returned by `manager.LibPaths(env)` in `expandEnvObjs`. -/
structure LibPaths where
  libPath : String
  vendorPath : String
  envLibPath : String
  envComponentPath : String
  envParamsPath : String
  deriving DecidableEq, Repr

/-- The slice of `metadata.Manager` used by `expandEnvObjs`. -/
structure Manager where
  libPaths : String → LibPaths
  componentPaths : Except String (List String)

/-- Go `kubecfg.LocalEnv`. -/
structure LocalEnv where
  name : String := ""
  apiObjects : List String := []
  deriving DecidableEq, Repr

/-- Go `kubecfg.Client`; `nspace` is the Go field `Namespace`, and the
client-pool / discovery handles are opaque and modelled as strings. -/
structure Client where
  name : String := ""
  apiObjects : List String := []
  clientPool : String := ""
  discovery : String := ""
  nspace : String := ""
  deriving DecidableEq, Repr

/-- Go `kubecfg.DiffLocalCmd`. -/
structure DiffLocalCmd where
  diffStrategy : String
  env1 : LocalEnv
  env2 : LocalEnv
  deriving DecidableEq, Repr

/-- Go `kubecfg.DiffRemoteCmd` (used both by the single-environment form and by
the local-versus-remote form). -/
structure DiffRemoteCmd where
  diffStrategy : String
  client : Client
  deriving DecidableEq, Repr

/-- Go `kubecfg.DiffRemotesCmd`. -/
structure DiffRemotesCmd where
  diffStrategy : String
  clientA : Client
  clientB : Client
  deriving DecidableEq, Repr

/-- The `kubecfg.DiffCmd` interface value returned by the resolver: exactly
one of the three concrete command types. -/
inductive DiffCmd where
  | remoteCmd : DiffRemoteCmd → DiffCmd
  | localCmd : DiffLocalCmd → DiffCmd
  | remotesCmd : DiffRemotesCmd → DiffCmd
  deriving DecidableEq, Repr

/-- The distinguishable errors produced by `cmd/diff.go` itself, plus a
wrapper for errors returned by external collaborators.  Constructor names
follow the spec's taxonomy (the spec's MissingOrInvalidPrefix /
InvalidLocatorFormat both correspond to `invalidEnvQualifier`, the single
`fmt.Errorf` at the two-locator validation; PrefixNotAllowedForSingleArgument
corresponds to `qualifierNotAllowedForSingleArg`). -/
inductive DiffError where
  | tooFewArguments
  | tooManyArguments
  | invalidEnvQualifier
  | unsupportedFlagCombination
  | qualifierNotAllowedForSingleArg
  | collaborator : String → DiffError
  deriving DecidableEq, Repr

/-- The literal Go error messages, tying each constructor to its
`fmt.Errorf` site in `cmd/diff.go` (the two argument-count messages are
additionally suffixed with the usage string at runtime). -/
def DiffError.message : DiffError → String
  | .tooFewArguments => "'diff' requires at least one argument, that is the name of the environment"
  | .tooManyArguments => "'diff' takes at most two arguments, that are the name of the environments"
  | .invalidEnvQualifier => "<env> must be prefaced by local: or remote:, ex: remote:us-west/prod"
  | .unsupportedFlagCombination => "'-f' is not currently supported for multiple environments"
  | .qualifierNotAllowedForSingleArg => "single <env> argument with prefix 'local:' or 'remote:' not allowed"
  | .collaborator s => s

/-- One collaborator interaction (filesystem, network, process state or the
final `Run`), in the order the Go code performs them. -/
inductive Event where
  | getwdEv
  | metadataFindEv
  | newExpanderEv
  | componentPathsEv
  | constructBaseObjEv
  | evaluateEv : List String → List String → List String → Event
  | expandEnvObjsEv : String → Event
  | expandEnvCmdObjsEv : String → List String → Event
  | restClientPoolEv : String → Event
  | nspaceEv
  | setupClientConfigEv : String → Event
  | runEv
  deriving DecidableEq, Repr

/-- The external collaborators of `cmd/diff.go`, as oracles.  Handles
(client pool, discovery) and API objects are opaque and modelled as
strings. -/
structure World where
  getwd : Except String String
  componentNames : Except String (List String)
  diffStrategyFlag : Except String String
  newExpander : Except String Expander
  constructBaseObj : List String → Option (List String) → Except String String
  importParams : String → String
  evaluate : Expander → List String → Except String (List String)
  metadataFind : Except String Manager
  expandEnvCmdObjs : String → List String → Except String (List String)
  restClientPool : String → Except String (String × String)
  nspaceFn : Except String String
  setupClientConfig : String → Except String (String × String × String)
  run : DiffCmd → Except String Unit

/-- Prepend already-performed events to a result/trace pair. -/
def prependTrace {α : Type} (pre : List Event)
    (r : Except DiffError α × List Event) : Except DiffError α × List Event :=
  (r.1, pre ++ r.2)

/-- Go `expandEnvObjs(cmd, env, manager)`: builds the expander inputs and invokes
the template evaluator once.  The search paths are
`append([]string{libPath, vendorPath, envLibPath}, expander.FlagJpath...)`
and the external codes are `append([]string{baseObj, params},
expander.ExtCodes...)`, exactly as in the Go source; the `evaluateEv` event
records the search paths, external codes and entry files supplied to the
evaluator. -/
def expandEnvObjs (w : World) (env : String) (m : Manager) :
    Except DiffError (List String) × List Event :=
  match w.newExpander with
  | .error e => (.error (.collaborator e), [.expandEnvObjsEv env, .newExpanderEv])
  | .ok expander =>
    let lp := m.libPaths env
    match m.componentPaths with
    | .error e =>
        (.error (.collaborator e),
         [.expandEnvObjsEv env, .newExpanderEv, .componentPathsEv])
    | .ok componentPaths =>
      match w.constructBaseObj componentPaths none with
      | .error e =>
          (.error (.collaborator e),
           [.expandEnvObjsEv env, .newExpanderEv, .componentPathsEv, .constructBaseObjEv])
      | .ok baseObj =>
        let params := w.importParams lp.envParamsPath
        let expander2 : Expander :=
          { flagJpath := [lp.libPath, lp.vendorPath, lp.envLibPath] ++ expander.flagJpath,
            extCodes := [baseObj, params] ++ expander.extCodes }
        let envFiles := [lp.envComponentPath]
        (match w.evaluate expander2 envFiles with
         | .error e => .error (.collaborator e)
         | .ok objs => .ok objs,
         [.expandEnvObjsEv env, .newExpanderEv, .componentPathsEv, .constructBaseObjEv,
          .evaluateEv expander2.flagJpath expander2.extCodes envFiles])

/-- Go `initDiffSingleEnv(env, diffStrategy, files, cmd, wd)`. -/
def initDiffSingleEnv (w : World) (env diffStrategy : String) (files : List String) :
    Except DiffError DiffCmd × List Event :=
  if strStartsWith env "remote:" || strStartsWith env "local:" then
    (.error .qualifierNotAllowedForSingleArg, [])
  else
    match w.expandEnvCmdObjs env files with
    | .error e => (.error (.collaborator e), [.expandEnvCmdObjsEv env files])
    | .ok objs =>
      match w.restClientPool env with
      | .error e =>
          (.error (.collaborator e),
           [.expandEnvCmdObjsEv env files, .restClientPoolEv env])
      | .ok (pool, disc) =>
        match w.nspaceFn with
        | .error e =>
            (.error (.collaborator e),
             [.expandEnvCmdObjsEv env files, .restClientPoolEv env, .nspaceEv])
        | .ok ns =>
            (.ok (.remoteCmd
               { diffStrategy := diffStrategy,
                 client := { name := "", apiObjects := objs, clientPool := pool,
                             discovery := disc, nspace := ns } }),
             [.expandEnvCmdObjsEv env files, .restClientPoolEv env, .nspaceEv])

/-- Go `initDiffLocalCmd(env1, env2, diffStrategy, cmd, m)`. -/
def initDiffLocalCmd (w : World) (env1 env2 diffStrategy : String) (m : Manager) :
    Except DiffError DiffCmd × List Event :=
  match (expandEnvObjs w env1 m).1 with
  | .error e => (.error e, (expandEnvObjs w env1 m).2)
  | .ok objs1 =>
    match (expandEnvObjs w env2 m).1 with
    | .error e => (.error e, (expandEnvObjs w env1 m).2 ++ (expandEnvObjs w env2 m).2)
    | .ok objs2 =>
        (.ok (.localCmd
           { diffStrategy := diffStrategy,
             env1 := { name := env1, apiObjects := objs1 },
             env2 := { name := env2, apiObjects := objs2 } }),
         (expandEnvObjs w env1 m).2 ++ (expandEnvObjs w env2 m).2)

/-- Go `initDiffRemotesCmd(env1, env2, diffStrategy, cmd, m)`: both environments
are expanded locally first, then the two client contexts are built. -/
def initDiffRemotesCmd (w : World) (env1 env2 diffStrategy : String) (m : Manager) :
    Except DiffError DiffCmd × List Event :=
  match (expandEnvObjs w env1 m).1 with
  | .error e => (.error e, (expandEnvObjs w env1 m).2)
  | .ok objsA =>
    match (expandEnvObjs w env2 m).1 with
    | .error e => (.error e, (expandEnvObjs w env1 m).2 ++ (expandEnvObjs w env2 m).2)
    | .ok objsB =>
      match w.setupClientConfig env1 with
      | .error e =>
          (.error (.collaborator e),
           (expandEnvObjs w env1 m).2 ++ (expandEnvObjs w env2 m).2
             ++ [.setupClientConfigEv env1])
      | .ok (poolA, discA, nsA) =>
        match w.setupClientConfig env2 with
        | .error e =>
            (.error (.collaborator e),
             (expandEnvObjs w env1 m).2 ++ (expandEnvObjs w env2 m).2
               ++ [.setupClientConfigEv env1, .setupClientConfigEv env2])
        | .ok (poolB, discB, nsB) =>
            (.ok (.remotesCmd
               { diffStrategy := diffStrategy,
                 clientA := { name := env1, apiObjects := objsA, clientPool := poolA,
                              discovery := discA, nspace := nsA },
                 clientB := { name := env2, apiObjects := objsB, clientPool := poolB,
                              discovery := discB, nspace := nsB } }),
             (expandEnvObjs w env1 m).2 ++ (expandEnvObjs w env2 m).2
               ++ [.setupClientConfigEv env1, .setupClientConfigEv env2])

/-- Go `initDiffRemoteCmd(localEnv, remoteEnv, diffStrategy, cmd, m)`: the local
environment is expanded, the remote one gets the client context; the Go code
never sets `c.Client.Name` here, so it stays `""`. -/
def initDiffRemoteCmd (w : World) (localEnv remoteEnv diffStrategy : String) (m : Manager) :
    Except DiffError DiffCmd × List Event :=
  match (expandEnvObjs w localEnv m).1 with
  | .error e => (.error e, (expandEnvObjs w localEnv m).2)
  | .ok objs =>
    match w.setupClientConfig remoteEnv with
    | .error e =>
        (.error (.collaborator e),
         (expandEnvObjs w localEnv m).2 ++ [.setupClientConfigEv remoteEnv])
    | .ok (pool, disc, ns) =>
        (.ok (.remoteCmd
           { diffStrategy := diffStrategy,
             client := { name := "", apiObjects := objs, clientPool := pool,
                         discovery := disc, nspace := ns } }),
         (expandEnvObjs w localEnv m).2 ++ [.setupClientConfigEv remoteEnv])

/-- Go `initDiffCmd(cmd, wd, envFq1, envFq2, files, diffStrategy)`: validation of
the locators, the component-filter check, `metadata.Find`, and dispatch to the
four variants. -/
def initDiffCmd (w : World) (envFq1 : String) (envFq2 : Option String)
    (files : List String) (diffStrategy : String) :
    Except DiffError DiffCmd × List Event :=
  match envFq2 with
  | none => initDiffSingleEnv w envFq1 diffStrategy files
  | some fq2 =>
    let env1 := splitN2 envFq1
    let env2 := splitN2 fq2
    if env1.length < 2 || env2.length < 2 ||
        (env1.getD 0 "" != "local" && env1.getD 0 "" != "remote") ||
        (env2.getD 0 "" != "local" && env2.getD 0 "" != "remote") then
      (.error .invalidEnvQualifier, [])
    else if files.length > 0 then
      (.error .unsupportedFlagCombination, [])
    else
      match w.metadataFind with
      | .error e => (.error (.collaborator e), [.metadataFindEv])
      | .ok m =>
        if env1.getD 0 "" == "local" && env2.getD 0 "" == "local" then
          prependTrace [.metadataFindEv]
            (initDiffLocalCmd w (env1.getD 1 "") (env2.getD 1 "") diffStrategy m)
        else if env1.getD 0 "" == "remote" && env2.getD 0 "" == "remote" then
          prependTrace [.metadataFindEv]
            (initDiffRemotesCmd w (env1.getD 1 "") (env2.getD 1 "") diffStrategy m)
        else
          let localEnv := if env1.getD 0 "" == "remote" then env2.getD 1 "" else env1.getD 1 ""
          let remoteEnv := if env1.getD 0 "" == "remote" then env1.getD 1 "" else env2.getD 1 ""
          prependTrace [.metadataFindEv]
            (initDiffRemoteCmd w localEnv remoteEnv diffStrategy m)

/-- The `RunE` closure of `diffCmd`: argument-count checks, `os.Getwd`, flag
lookups, `initDiffCmd`, then `c.Run(...)`. -/
def diffCmdRunE (w : World) (args : List String) : Except DiffError Unit × List Event :=
  if args.length == 0 then
    (.error .tooFewArguments, [])
  else if args.length > 2 then
    (.error .tooManyArguments, [])
  else
    match w.getwd with
    | .error e => (.error (.collaborator e), [.getwdEv])
    | .ok _ =>
      match w.componentNames with
      | .error e => (.error (.collaborator e), [.getwdEv])
      | .ok componentNames =>
        let env1 := args.getD 0 ""
        let env2 := if args.length > 1 then some (args.getD 1 "") else none
        match w.diffStrategyFlag with
        | .error e => (.error (.collaborator e), [.getwdEv])
        | .ok diffStrategy =>
          match (initDiffCmd w env1 env2 componentNames diffStrategy).1 with
          | .error e =>
              (.error e, .getwdEv :: (initDiffCmd w env1 env2 componentNames diffStrategy).2)
          | .ok c =>
            match w.run c with
            | .error e =>
                (.error (.collaborator e),
                 .getwdEv :: ((initDiffCmd w env1 env2 componentNames diffStrategy).2
                   ++ [.runEv]))
            | .ok _ =>
                (.ok (),
                 .getwdEv :: ((initDiffCmd w env1 env2 componentNames diffStrategy).2
                   ++ [.runEv]))

/-- Modelled from the spec: the key of an external-code fragment
`"name=code"` (the spec's §4.3 external-code fragments each bind one name;
the fragment format and the evaluator that consumes it are outside
`cmd/diff.go`). -/
def extCodeKey (c : String) : String :=
  (goSplitN2 '=' c).getD 0 ""

/-- Modelled from the spec: the code bound by an external-code fragment
`"name=code"`. -/
def extCodeValue (c : String) : String :=
  (goSplitN2 '=' c).getD 1 ""

/-- Modelled from the spec: the external template evaluator resolves
external-code name collisions so that "environment parameters take precedence
over anything injected later" (§4.3), i.e. the first fragment in the supplied
list that binds a name provides its value. -/
def lookupExtCode (codes : List String) (n : String) : Option String :=
  match codes.find? (fun c => extCodeKey c == n) with
  | some c => some (extCodeValue c)
  | none => none

deriving instance DecidableEq for Except

/-- A concrete manager used for witnesses and counterexamples. -/
def okManager : Manager :=
  { libPaths := fun env =>
      { libPath := "lib", vendorPath := "vendor", envLibPath := "envlib/" ++ env,
        envComponentPath := "envcomp/" ++ env, envParamsPath := "params/" ++ env },
    componentPaths := .ok ["comp1", "comp2"] }

/-- A concrete world in which every collaborator succeeds, used for witnesses
and counterexamples. -/
def okWorld : World :=
  { getwd := .ok "/app",
    componentNames := .ok [],
    diffStrategyFlag := .ok "subset",
    newExpander := .ok { flagJpath := ["callerpath"], extCodes := ["params=CALLER"] },
    constructBaseObj := fun _ _ => .ok "base=1",
    importParams := fun _ => "params=ENV",
    evaluate := fun _ _ => .ok ["obj1"],
    metadataFind := .ok okManager,
    expandEnvCmdObjs := fun _ _ => .ok ["obj1"],
    restClientPool := fun _ => .ok ("pool", "disc"),
    nspaceFn := .ok "default",
    setupClientConfig := fun _ => .ok ("pool", "disc", "ns"),
    run := fun _ => .ok () }

/-! ### String lemmas connecting `strings.HasPrefix` with `strings.SplitN` -/

theorem listStartsWith_eq_append {cs p : List Char} (h : listStartsWith cs p = true) :
    ∃ t, cs = p ++ t := by
  induction p generalizing cs with
  | nil => exact ⟨cs, rfl⟩
  | cons b bs ih =>
    cases cs with
    | nil => simp [listStartsWith] at h
    | cons c cs' =>
      simp [listStartsWith] at h
      obtain ⟨h1, h2⟩ := h
      obtain ⟨t, ht⟩ := ih h2
      exact ⟨t, by simp [h1, ht]⟩

theorem listStartsWith_nil (cs : List Char) : listStartsWith cs [] = true := by
  cases cs <;> rfl

theorem listStartsWith_append (p t : List Char) : listStartsWith (p ++ t) p = true := by
  induction p with
  | nil => simp [listStartsWith_nil]
  | cons c cs ih => simp [listStartsWith, ih]

theorem splitN2Chars_append {sep : Char} (p : List Char) (t acc : List Char)
    (hp : ∀ c ∈ p, ¬(c = sep)) :
    splitN2Chars sep (p ++ sep :: t) acc = [acc.reverse ++ p, t] := by
  induction p generalizing acc with
  | nil => simp [splitN2Chars]
  | cons c cs ih =>
    have hc : ¬(c = sep) := hp c (by simp)
    have hp' : ∀ x ∈ cs, ¬(x = sep) := fun x hx => hp x (by simp [hx])
    simp only [List.cons_append, splitN2Chars, if_neg hc, List.append_eq]
    rw [ih (c :: acc) hp']
    simp

theorem splitN2Chars_two {sep : Char} {cs acc p r : List Char}
    (h : splitN2Chars sep cs acc = [p, r]) :
    acc.reverse ++ cs = p ++ sep :: r := by
  induction cs generalizing acc with
  | nil => simp [splitN2Chars] at h
  | cons c cs' ih =>
    by_cases hc : c = sep
    · subst hc
      simp [splitN2Chars] at h
      obtain ⟨h1, h2⟩ := h
      subst h1; subst h2; simp
    · simp only [splitN2Chars, if_neg hc] at h
      have h' := ih h
      simpa using h'

theorem splitN2Chars_shape (sep : Char) (cs acc : List Char) :
    (∃ x, splitN2Chars sep cs acc = [x]) ∨ ∃ p r, splitN2Chars sep cs acc = [p, r] := by
  induction cs generalizing acc with
  | nil => exact Or.inl ⟨acc.reverse, rfl⟩
  | cons c cs' ih =>
    by_cases hc : c = sep
    · subst hc
      exact Or.inr ⟨acc.reverse, cs', by simp [splitN2Chars]⟩
    · simpa only [splitN2Chars, if_neg hc] using ih (c :: acc)

theorem strDataAppend (s t : String) : (s ++ t).data = s.data ++ t.data := by
  cases s; cases t; rfl

theorem strMkData (s : String) : String.mk s.data = s := by
  cases s; rfl

theorem strStartsWith_splitN2 {s k : String} (hk : ∀ c ∈ k.data, ¬(c = ':'))
    (h : strStartsWith s (k ++ ":") = true) : ∃ t, splitN2 s = [k, t] := by
  unfold strStartsWith at h
  obtain ⟨t, ht⟩ := listStartsWith_eq_append h
  rw [strDataAppend] at ht
  have hs : s.data = k.data ++ ':' :: t := by simpa using ht
  refine ⟨String.mk t, ?_⟩
  unfold splitN2 goSplitN2
  rw [hs, splitN2Chars_append k.data t [] hk]
  simp [strMkData]

theorem map_mk_eq_two {l : List (List Char)} {p r : String}
    (h : l.map String.mk = [p, r]) : l = [p.data, r.data] := by
  cases l with
  | nil => simp at h
  | cons a l' =>
    cases l' with
    | nil => simp at h
    | cons b l'' =>
      cases l'' with
      | nil =>
        simp only [List.map_cons, List.map_nil, List.cons.injEq, and_true] at h
        obtain ⟨h1, h2⟩ := h
        rw [← h1, ← h2]
      | cons c l''' => simp at h

theorem splitN2_data {s p r : String} (h : splitN2 s = [p, r]) :
    s.data = p.data ++ ':' :: r.data := by
  unfold splitN2 goSplitN2 at h
  have h2 := map_mk_eq_two h
  have h3 := splitN2Chars_two h2
  simpa using h3

theorem splitN2_strStartsWith {s p r : String} (h : splitN2 s = [p, r]) :
    strStartsWith s (p ++ ":") = true := by
  have hs := splitN2_data h
  unfold strStartsWith
  rw [strDataAppend, hs]
  have : p.data ++ ':' :: r.data = (p.data ++ (":" : String).data) ++ r.data := by simp
  rw [this]
  exact listStartsWith_append _ _

/-! ### Trace lemmas for `expandEnvObjs` -/

theorem expandEnvObjs_head (w : World) (env : String) (m : Manager) :
    ∃ t, (expandEnvObjs w env m).2 = Event.expandEnvObjsEv env :: t := by
  cases hN : w.newExpander with
  | error e => exact ⟨[.newExpanderEv], by simp [expandEnvObjs, hN]⟩
  | ok exp =>
    cases hC : m.componentPaths with
    | error e => exact ⟨[.newExpanderEv, .componentPathsEv], by simp [expandEnvObjs, hN, hC]⟩
    | ok cp =>
      cases hB : w.constructBaseObj cp none with
      | error e =>
        exact ⟨[.newExpanderEv, .componentPathsEv, .constructBaseObjEv],
          by simp [expandEnvObjs, hN, hC, hB]⟩
      | ok base =>
        exact ⟨[.newExpanderEv, .componentPathsEv, .constructBaseObjEv,
          .evaluateEv
            ([(m.libPaths env).libPath, (m.libPaths env).vendorPath,
              (m.libPaths env).envLibPath] ++ exp.flagJpath)
            ([base, w.importParams (m.libPaths env).envParamsPath] ++ exp.extCodes)
            [(m.libPaths env).envComponentPath]],
          by simp [expandEnvObjs, hN, hC, hB]⟩

theorem expandEnvObjs_no_client (w : World) (env : String) (m : Manager) (x : String) :
    Event.setupClientConfigEv x ∉ (expandEnvObjs w env m).2 := by
  cases hN : w.newExpander with
  | error e => simp [expandEnvObjs, hN]
  | ok exp =>
    cases hC : m.componentPaths with
    | error e => simp [expandEnvObjs, hN, hC]
    | ok cp =>
      cases hB : w.constructBaseObj cp none with
      | error e => simp [expandEnvObjs, hN, hC, hB]
      | ok base => simp [expandEnvObjs, hN, hC, hB]

theorem expandEnvObjs_name {w : World} {env : String} {m : Manager} {x : String}
    (h : Event.expandEnvObjsEv x ∈ (expandEnvObjs w env m).2) : x = env := by
  cases hN : w.newExpander with
  | error e => simpa [expandEnvObjs, hN] using h
  | ok exp =>
    cases hC : m.componentPaths with
    | error e => simpa [expandEnvObjs, hN, hC] using h
    | ok cp =>
      cases hB : w.constructBaseObj cp none with
      | error e => simpa [expandEnvObjs, hN, hC, hB] using h
      | ok base => simpa [expandEnvObjs, hN, hC, hB] using h

theorem expandEnvObjs_evaluateEv {w : World} {env : String} {m : Manager}
    {jp codes fs : List String}
    (h : Event.evaluateEv jp codes fs ∈ (expandEnvObjs w env m).2) :
    ∃ exp cp base, w.newExpander = .ok exp ∧ m.componentPaths = .ok cp ∧
      w.constructBaseObj cp none = .ok base ∧
      jp = [(m.libPaths env).libPath, (m.libPaths env).vendorPath,
            (m.libPaths env).envLibPath] ++ exp.flagJpath ∧
      codes = [base, w.importParams (m.libPaths env).envParamsPath] ++ exp.extCodes ∧
      fs = [(m.libPaths env).envComponentPath] := by
  cases hN : w.newExpander with
  | error e => simp [expandEnvObjs, hN] at h
  | ok exp =>
    cases hC : m.componentPaths with
    | error e => simp [expandEnvObjs, hN, hC] at h
    | ok cp =>
      cases hB : w.constructBaseObj cp none with
      | error e => simp [expandEnvObjs, hN, hC, hB] at h
      | ok base =>
        simp [expandEnvObjs, hN, hC, hB] at h
        refine ⟨exp, cp, base, ?_, ?_, ?_, h.1, h.2.1, h.2.2⟩ <;> first | exact hN | exact hC | exact hB | rfl


theorem expandEnvObjs_err {w : World} {env : String} {m : Manager} {e : DiffError}
    (h : (expandEnvObjs w env m).1 = .error e) : ∃ s, e = .collaborator s := by
  cases hN : w.newExpander with
  | error e' => simp [expandEnvObjs, hN] at h; exact ⟨e', h.symm⟩
  | ok exp =>
    cases hC : m.componentPaths with
    | error e' => simp [expandEnvObjs, hN, hC] at h; exact ⟨e', h.symm⟩
    | ok cp =>
      cases hB : w.constructBaseObj cp none with
      | error e' => simp [expandEnvObjs, hN, hC, hB] at h; exact ⟨e', h.symm⟩
      | ok base =>
        simp [expandEnvObjs, hN, hC, hB] at h
        split at h
        · rename_i e' heq
          simp at h
          exact ⟨e', h.symm⟩
        · simp at h

/-! ### Shape lemmas for the four init helpers -/

theorem exceptCases {ε α : Type} (x : Except ε α) :
    (∃ e, x = .error e) ∨ ∃ a, x = .ok a := by
  cases x with
  | error e => exact Or.inl ⟨e, rfl⟩
  | ok a => exact Or.inr ⟨a, rfl⟩

theorem initDiffLocalCmd_err {w : World} {env1 env2 strat : String} {m : Manager}
    {e : DiffError} (h : (initDiffLocalCmd w env1 env2 strat m).1 = .error e) :
    ∃ s, e = .collaborator s := by
  rcases exceptCases (expandEnvObjs w env1 m).1 with ⟨e1, hA⟩ | ⟨objs1, hA⟩
  · simp [initDiffLocalCmd, hA] at h
    exact h ▸ expandEnvObjs_err hA
  · rcases exceptCases (expandEnvObjs w env2 m).1 with ⟨e2, hB⟩ | ⟨objs2, hB⟩
    · simp [initDiffLocalCmd, hA, hB] at h
      exact h ▸ expandEnvObjs_err hB
    · simp [initDiffLocalCmd, hA, hB] at h

theorem initDiffLocalCmd_ok {w : World} {env1 env2 strat : String} {m : Manager}
    {d : DiffCmd} (h : (initDiffLocalCmd w env1 env2 strat m).1 = .ok d) :
    ∃ c, d = .localCmd c ∧ c.env1.name = env1 ∧ c.env2.name = env2 := by
  rcases exceptCases (expandEnvObjs w env1 m).1 with ⟨e1, hA⟩ | ⟨objs1, hA⟩
  · simp [initDiffLocalCmd, hA] at h
  · rcases exceptCases (expandEnvObjs w env2 m).1 with ⟨e2, hB⟩ | ⟨objs2, hB⟩
    · simp [initDiffLocalCmd, hA, hB] at h
    · simp [initDiffLocalCmd, hA, hB] at h
      exact ⟨_, h.symm, rfl, rfl⟩

theorem initDiffRemotesCmd_err {w : World} {env1 env2 strat : String} {m : Manager}
    {e : DiffError} (h : (initDiffRemotesCmd w env1 env2 strat m).1 = .error e) :
    ∃ s, e = .collaborator s := by
  rcases exceptCases (expandEnvObjs w env1 m).1 with ⟨e1, hA⟩ | ⟨objs1, hA⟩
  · simp [initDiffRemotesCmd, hA] at h
    exact h ▸ expandEnvObjs_err hA
  · rcases exceptCases (expandEnvObjs w env2 m).1 with ⟨e2, hB⟩ | ⟨objs2, hB⟩
    · simp [initDiffRemotesCmd, hA, hB] at h
      exact h ▸ expandEnvObjs_err hB
    · rcases exceptCases (w.setupClientConfig env1) with ⟨e1, hC1⟩ | ⟨⟨pA, dA, nA⟩, hC1⟩
      · simp [initDiffRemotesCmd, hA, hB, hC1] at h
        exact ⟨e1, h.symm⟩
      · rcases exceptCases (w.setupClientConfig env2) with ⟨e2, hC2⟩ | ⟨⟨pB, dB, nB⟩, hC2⟩
        · simp [initDiffRemotesCmd, hA, hB, hC1, hC2] at h
          exact ⟨e2, h.symm⟩
        · simp [initDiffRemotesCmd, hA, hB, hC1, hC2] at h

theorem initDiffRemotesCmd_ok {w : World} {env1 env2 strat : String} {m : Manager}
    {d : DiffCmd} (h : (initDiffRemotesCmd w env1 env2 strat m).1 = .ok d) :
    ∃ c, d = .remotesCmd c ∧ c.clientA.name = env1 ∧ c.clientB.name = env2 := by
  rcases exceptCases (expandEnvObjs w env1 m).1 with ⟨e1, hA⟩ | ⟨objs1, hA⟩
  · simp [initDiffRemotesCmd, hA] at h
  · rcases exceptCases (expandEnvObjs w env2 m).1 with ⟨e2, hB⟩ | ⟨objs2, hB⟩
    · simp [initDiffRemotesCmd, hA, hB] at h
    · rcases exceptCases (w.setupClientConfig env1) with ⟨e1, hC1⟩ | ⟨⟨pA, dA, nA⟩, hC1⟩
      · simp [initDiffRemotesCmd, hA, hB, hC1] at h
      · rcases exceptCases (w.setupClientConfig env2) with ⟨e2, hC2⟩ | ⟨⟨pB, dB, nB⟩, hC2⟩
        · simp [initDiffRemotesCmd, hA, hB, hC1, hC2] at h
        · simp [initDiffRemotesCmd, hA, hB, hC1, hC2] at h
          exact ⟨_, h.symm, rfl, rfl⟩

theorem initDiffRemotesCmd_abort1 {w : World} {env1 env2 strat : String} {m : Manager}
    {e : DiffError} (hA : (expandEnvObjs w env1 m).1 = .error e) :
    initDiffRemotesCmd w env1 env2 strat m = (.error e, (expandEnvObjs w env1 m).2) := by
  simp [initDiffRemotesCmd, hA]

theorem initDiffRemotesCmd_abort2 {w : World} {env1 env2 strat : String} {m : Manager}
    {objs : List String} {e : DiffError}
    (hA : (expandEnvObjs w env1 m).1 = .ok objs)
    (hB : (expandEnvObjs w env2 m).1 = .error e) :
    initDiffRemotesCmd w env1 env2 strat m =
      (.error e, (expandEnvObjs w env1 m).2 ++ (expandEnvObjs w env2 m).2) := by
  simp [initDiffRemotesCmd, hA, hB]

theorem initDiffRemotesCmd_client_mem {w : World} {env1 env2 strat : String} {m : Manager}
    {x : String}
    (h : Event.setupClientConfigEv x ∈ (initDiffRemotesCmd w env1 env2 strat m).2) :
    Event.expandEnvObjsEv env1 ∈ (initDiffRemotesCmd w env1 env2 strat m).2 ∧
      Event.expandEnvObjsEv env2 ∈ (initDiffRemotesCmd w env1 env2 strat m).2 := by
  have hnc1 := expandEnvObjs_no_client w env1 m x
  have hnc2 := expandEnvObjs_no_client w env2 m x
  obtain ⟨ta, hta⟩ := expandEnvObjs_head w env1 m
  obtain ⟨tb, htb⟩ := expandEnvObjs_head w env2 m
  rcases exceptCases (expandEnvObjs w env1 m).1 with ⟨e1, hA⟩ | ⟨objs1, hA⟩
  · simp [initDiffRemotesCmd, hA] at h
    exact absurd h hnc1
  · rcases exceptCases (expandEnvObjs w env2 m).1 with ⟨e2, hB⟩ | ⟨objs2, hB⟩
    · simp [initDiffRemotesCmd, hA, hB] at h
      rcases h with h | h
      · exact absurd h hnc1
      · exact absurd h hnc2
    · rcases exceptCases (w.setupClientConfig env1) with ⟨e1, hC1⟩ | ⟨⟨pA, dA, nA⟩, hC1⟩
      · simp [initDiffRemotesCmd, hA, hB, hC1, hta, htb]
      · rcases exceptCases (w.setupClientConfig env2) with ⟨e2, hC2⟩ | ⟨⟨pB, dB, nB⟩, hC2⟩
        · simp [initDiffRemotesCmd, hA, hB, hC1, hC2, hta, htb]
        · simp [initDiffRemotesCmd, hA, hB, hC1, hC2, hta, htb]

theorem initDiffRemotesCmd_ok_events {w : World} {env1 env2 strat : String} {m : Manager}
    {d : DiffCmd} (h : (initDiffRemotesCmd w env1 env2 strat m).1 = .ok d) :
    Event.expandEnvObjsEv env1 ∈ (initDiffRemotesCmd w env1 env2 strat m).2 ∧
      Event.expandEnvObjsEv env2 ∈ (initDiffRemotesCmd w env1 env2 strat m).2 ∧
      Event.setupClientConfigEv env1 ∈ (initDiffRemotesCmd w env1 env2 strat m).2 ∧
      Event.setupClientConfigEv env2 ∈ (initDiffRemotesCmd w env1 env2 strat m).2 := by
  obtain ⟨ta, hta⟩ := expandEnvObjs_head w env1 m
  obtain ⟨tb, htb⟩ := expandEnvObjs_head w env2 m
  rcases exceptCases (expandEnvObjs w env1 m).1 with ⟨e1, hA⟩ | ⟨objs1, hA⟩
  · simp [initDiffRemotesCmd, hA] at h
  · rcases exceptCases (expandEnvObjs w env2 m).1 with ⟨e2, hB⟩ | ⟨objs2, hB⟩
    · simp [initDiffRemotesCmd, hA, hB] at h
    · rcases exceptCases (w.setupClientConfig env1) with ⟨e1, hC1⟩ | ⟨⟨pA, dA, nA⟩, hC1⟩
      · simp [initDiffRemotesCmd, hA, hB, hC1] at h
      · rcases exceptCases (w.setupClientConfig env2) with ⟨e2, hC2⟩ | ⟨⟨pB, dB, nB⟩, hC2⟩
        · simp [initDiffRemotesCmd, hA, hB, hC1, hC2] at h
        · simp [initDiffRemotesCmd, hA, hB, hC1, hC2, hta, htb]

theorem initDiffRemoteCmd_err {w : World} {localEnv remoteEnv strat : String} {m : Manager}
    {e : DiffError} (h : (initDiffRemoteCmd w localEnv remoteEnv strat m).1 = .error e) :
    ∃ s, e = .collaborator s := by
  rcases exceptCases (expandEnvObjs w localEnv m).1 with ⟨e1, hA⟩ | ⟨objs, hA⟩
  · simp [initDiffRemoteCmd, hA] at h
    exact h ▸ expandEnvObjs_err hA
  · rcases exceptCases (w.setupClientConfig remoteEnv) with ⟨e1, hC⟩ | ⟨⟨pool, disc, ns⟩, hC⟩
    · simp [initDiffRemoteCmd, hA, hC] at h
      exact ⟨e1, h.symm⟩
    · simp [initDiffRemoteCmd, hA, hC] at h

theorem initDiffRemoteCmd_ok {w : World} {localEnv remoteEnv strat : String} {m : Manager}
    {d : DiffCmd} (h : (initDiffRemoteCmd w localEnv remoteEnv strat m).1 = .ok d) :
    ∃ c, d = .remoteCmd c := by
  rcases exceptCases (expandEnvObjs w localEnv m).1 with ⟨e1, hA⟩ | ⟨objs, hA⟩
  · simp [initDiffRemoteCmd, hA] at h
  · rcases exceptCases (w.setupClientConfig remoteEnv) with ⟨e1, hC⟩ | ⟨⟨pool, disc, ns⟩, hC⟩
    · simp [initDiffRemoteCmd, hA, hC] at h
    · simp [initDiffRemoteCmd, hA, hC] at h
      exact ⟨_, h.symm⟩

theorem initDiffRemoteCmd_expand_name {w : World} {localEnv remoteEnv strat : String}
    {m : Manager} {x : String}
    (h : Event.expandEnvObjsEv x ∈ (initDiffRemoteCmd w localEnv remoteEnv strat m).2) :
    x = localEnv := by
  rcases exceptCases (expandEnvObjs w localEnv m).1 with ⟨e1, hA⟩ | ⟨objs, hA⟩
  · simp [initDiffRemoteCmd, hA] at h
    exact expandEnvObjs_name h
  · rcases exceptCases (w.setupClientConfig remoteEnv) with ⟨e1, hC⟩ | ⟨⟨pool, disc, ns⟩, hC⟩
    · simp [initDiffRemoteCmd, hA, hC] at h
      exact expandEnvObjs_name h
    · simp [initDiffRemoteCmd, hA, hC] at h
      exact expandEnvObjs_name h

theorem initDiffRemoteCmd_client_name {w : World} {localEnv remoteEnv strat : String}
    {m : Manager} {x : String}
    (h : Event.setupClientConfigEv x ∈ (initDiffRemoteCmd w localEnv remoteEnv strat m).2) :
    x = remoteEnv := by
  have hnc := expandEnvObjs_no_client w localEnv m x
  rcases exceptCases (expandEnvObjs w localEnv m).1 with ⟨e1, hA⟩ | ⟨objs, hA⟩
  · simp [initDiffRemoteCmd, hA] at h
    exact absurd h hnc
  · rcases exceptCases (w.setupClientConfig remoteEnv) with ⟨e1, hC⟩ | ⟨⟨pool, disc, ns⟩, hC⟩
    · simp [initDiffRemoteCmd, hA, hC] at h
      rcases h with h | h
      · exact absurd h hnc
      · exact h
    · simp [initDiffRemoteCmd, hA, hC] at h
      rcases h with h | h
      · exact absurd h hnc
      · exact h

theorem initDiffRemoteCmd_ok_events {w : World} {localEnv remoteEnv strat : String}
    {m : Manager} {d : DiffCmd}
    (h : (initDiffRemoteCmd w localEnv remoteEnv strat m).1 = .ok d) :
    Event.expandEnvObjsEv localEnv ∈ (initDiffRemoteCmd w localEnv remoteEnv strat m).2 ∧
      Event.setupClientConfigEv remoteEnv ∈
        (initDiffRemoteCmd w localEnv remoteEnv strat m).2 := by
  obtain ⟨ta, hta⟩ := expandEnvObjs_head w localEnv m
  rcases exceptCases (expandEnvObjs w localEnv m).1 with ⟨e1, hA⟩ | ⟨objs, hA⟩
  · simp [initDiffRemoteCmd, hA] at h
  · rcases exceptCases (w.setupClientConfig remoteEnv) with ⟨e1, hC⟩ | ⟨⟨pool, disc, ns⟩, hC⟩
    · simp [initDiffRemoteCmd, hA, hC] at h
    · simp [initDiffRemoteCmd, hA, hC, hta]

theorem initDiffSingleEnv_err {w : World} {env strat : String} {files : List String}
    {e : DiffError} (h : (initDiffSingleEnv w env strat files).1 = .error e) :
    e = .qualifierNotAllowedForSingleArg ∨ ∃ s, e = .collaborator s := by
  by_cases hq : (strStartsWith env "remote:" || strStartsWith env "local:") = true
  · simp [initDiffSingleEnv, hq] at h
    exact Or.inl h.symm
  · rcases exceptCases (w.expandEnvCmdObjs env files) with ⟨e1, hE⟩ | ⟨objs, hE⟩
    · simp [initDiffSingleEnv, hq, hE] at h
      exact Or.inr ⟨e1, h.symm⟩
    · rcases exceptCases (w.restClientPool env) with ⟨e1, hR⟩ | ⟨⟨pool, disc⟩, hR⟩
      · simp [initDiffSingleEnv, hq, hE, hR] at h
        exact Or.inr ⟨e1, h.symm⟩
      · rcases exceptCases w.nspaceFn with ⟨e1, hNs⟩ | ⟨ns, hNs⟩
        · simp [initDiffSingleEnv, hq, hE, hR, hNs] at h
          exact Or.inr ⟨e1, h.symm⟩
        · simp [initDiffSingleEnv, hq, hE, hR, hNs] at h
/-! ### Dispatch equations for `initDiffCmd` -/

theorem initDiffCmd_local_eq {w : World} {s1 s2 n1 n2 strat : String} {m : Manager}
    (h1 : splitN2 s1 = ["local", n1]) (h2 : splitN2 s2 = ["local", n2])
    (hm : w.metadataFind = .ok m) :
    initDiffCmd w s1 (some s2) [] strat =
      prependTrace [.metadataFindEv] (initDiffLocalCmd w n1 n2 strat m) := by
  simp [initDiffCmd, h1, h2, hm]

theorem initDiffCmd_remotes_eq {w : World} {s1 s2 n1 n2 strat : String} {m : Manager}
    (h1 : splitN2 s1 = ["remote", n1]) (h2 : splitN2 s2 = ["remote", n2])
    (hm : w.metadataFind = .ok m) :
    initDiffCmd w s1 (some s2) [] strat =
      prependTrace [.metadataFindEv] (initDiffRemotesCmd w n1 n2 strat m) := by
  simp [initDiffCmd, h1, h2, hm]

theorem initDiffCmd_mixed_eq {w : World} {s1 s2 n1 n2 strat : String} {m : Manager}
    (h1 : splitN2 s1 = ["local", n1]) (h2 : splitN2 s2 = ["remote", n2])
    (hm : w.metadataFind = .ok m) :
    initDiffCmd w s1 (some s2) [] strat =
      prependTrace [.metadataFindEv] (initDiffRemoteCmd w n1 n2 strat m) := by
  simp [initDiffCmd, h1, h2, hm]

theorem initDiffCmd_mixed_eq' {w : World} {s1 s2 n1 n2 strat : String} {m : Manager}
    (h1 : splitN2 s1 = ["remote", n1]) (h2 : splitN2 s2 = ["local", n2])
    (hm : w.metadataFind = .ok m) :
    initDiffCmd w s1 (some s2) [] strat =
      prependTrace [.metadataFindEv] (initDiffRemoteCmd w n2 n1 strat m) := by
  simp [initDiffCmd, h1, h2, hm]

theorem initDiffCmd_find_err {w : World} {s1 s2 k1 k2 n1 n2 strat : String} {e : String}
    (h1 : splitN2 s1 = [k1, n1]) (h2 : splitN2 s2 = [k2, n2])
    (hk1 : k1 = "local" ∨ k1 = "remote") (hk2 : k2 = "local" ∨ k2 = "remote")
    (hm : w.metadataFind = .error e) :
    initDiffCmd w s1 (some s2) [] strat = (.error (.collaborator e), [.metadataFindEv]) := by
  rcases hk1 with hk1 | hk1 <;> rcases hk2 with hk2 | hk2 <;> subst hk1 <;> subst hk2 <;>
    simp [initDiffCmd, h1, h2, hm]

/-- A locator that carries neither a `local:` nor a `remote:` qualifier fails
the two-locator validation test of `initDiffCmd`. -/
theorem notQualified_invalid {s : String}
    (hl : strStartsWith s "local:" = false) (hr : strStartsWith s "remote:" = false) :
    (splitN2 s).length < 2 ∨
      ((splitN2 s).getD 0 "" ≠ "local" ∧ (splitN2 s).getD 0 "" ≠ "remote") := by
  rcases splitN2Chars_shape ':' s.data [] with ⟨x, hx⟩ | ⟨p, r, hpr⟩
  · left
    unfold splitN2 goSplitN2
    rw [hx]
    simp
  · right
    have hsp : splitN2 s = [String.mk p, String.mk r] := by
      unfold splitN2 goSplitN2
      rw [hpr]
      simp
    rw [hsp]
    constructor
    · intro hp
      simp at hp
      have := splitN2_strStartsWith (p := "local") (r := String.mk r) (by rw [hsp, hp])
      rw [show ("local" ++ ":" : String) = "local:" from by decide] at this
      rw [this] at hl
      simp at hl
    · intro hp
      simp at hp
      have := splitN2_strStartsWith (p := "remote") (r := String.mk r) (by rw [hsp, hp])
      rw [show ("remote" ++ ":" : String) = "remote:" from by decide] at this
      rw [this] at hr
      simp at hr

theorem initDiffCmd_invalid_core {w : World} {s1 s2 strat : String} {files : List String}
    (hcond :
      ((splitN2 s1).length < 2 ∨
        ((splitN2 s1).getD 0 "" ≠ "local" ∧ (splitN2 s1).getD 0 "" ≠ "remote")) ∨
      ((splitN2 s2).length < 2 ∨
        ((splitN2 s2).getD 0 "" ≠ "local" ∧ (splitN2 s2).getD 0 "" ≠ "remote"))) :
    initDiffCmd w s1 (some s2) files strat = (.error .invalidEnvQualifier, []) := by
  unfold initDiffCmd
  rcases hcond with (h | ⟨hne1, hne2⟩) | (h | ⟨hne1, hne2⟩)
  · simp [h]
  · simp only [List.getD_eq_getElem?_getD] at hne1 hne2
    simp
    intro _ _ hk _
    exact absurd (hk hne1) hne2
  · simp [h]
  · simp only [List.getD_eq_getElem?_getD] at hne1 hne2
    simp
    intro _ _ _ hk
    exact absurd (hk hne1) hne2

theorem initDiffCmd_invalid {w : World} {s1 s2 strat : String} {files : List String}
    (hbad :
      (strStartsWith s1 "local:" = false ∧ strStartsWith s1 "remote:" = false) ∨
      (strStartsWith s2 "local:" = false ∧ strStartsWith s2 "remote:" = false)) :
    initDiffCmd w s1 (some s2) files strat = (.error .invalidEnvQualifier, []) := by
  apply initDiffCmd_invalid_core
  rcases hbad with ⟨hl, hr⟩ | ⟨hl, hr⟩
  · exact Or.inl (notQualified_invalid hl hr)
  · exact Or.inr (notQualified_invalid hl hr)

theorem splitN2_shape (s : String) :
    (∃ x, splitN2 s = [x]) ∨ ∃ p r, splitN2 s = [p, r] := by
  unfold splitN2 goSplitN2
  rcases splitN2Chars_shape ':' s.data [] with ⟨x, hx⟩ | ⟨p, r, hpr⟩
  · exact Or.inl ⟨String.mk x, by rw [hx]; simp⟩
  · exact Or.inr ⟨String.mk p, String.mk r, by rw [hpr]; simp⟩

theorem initDiffCmd_filter_eq {w : World} {s1 s2 k1 k2 n1 n2 strat : String}
    {files : List String}
    (h1 : splitN2 s1 = [k1, n1]) (h2 : splitN2 s2 = [k2, n2])
    (hk1 : k1 = "local" ∨ k1 = "remote") (hk2 : k2 = "local" ∨ k2 = "remote")
    (hfiles : 0 < files.length) :
    initDiffCmd w s1 (some s2) files strat = (.error .unsupportedFlagCombination, []) := by
  rcases hk1 with hk1 | hk1 <;> rcases hk2 with hk2 | hk2 <;> subst hk1 <;> subst hk2 <;>
    simp [initDiffCmd, h1, h2, hfiles]

/-- If `splitN2 s` yields a first component other than `k` (with `k`
colon-free), then `s` does not start with `k ++ ":"`. -/
theorem splitN2_not_startsWith {s k p r : String} (hs : splitN2 s = [p, r])
    (hp : p ≠ k) (hk : ∀ c ∈ k.data, ¬ c = ':') :
    strStartsWith s (k ++ ":") = false := by
  cases hb : strStartsWith s (k ++ ":") with
  | false => rfl
  | true =>
    obtain ⟨t, ht⟩ := strStartsWith_splitN2 hk hb
    rw [hs] at ht
    simp at ht
    exact absurd ht.1 hp

theorem initDiffLocalCmd_head (w : World) (env1 env2 strat : String) (m : Manager) :
    ∃ t, (initDiffLocalCmd w env1 env2 strat m).2 = Event.expandEnvObjsEv env1 :: t := by
  obtain ⟨ta, hta⟩ := expandEnvObjs_head w env1 m
  rcases exceptCases (expandEnvObjs w env1 m).1 with ⟨e1, hA⟩ | ⟨o1, hA⟩
  · exact ⟨ta, by simp [initDiffLocalCmd, hA, hta]⟩
  · rcases exceptCases (expandEnvObjs w env2 m).1 with ⟨e2, hB⟩ | ⟨o2, hB⟩
    · exact ⟨ta ++ (expandEnvObjs w env2 m).2, by simp [initDiffLocalCmd, hA, hB, hta]⟩
    · exact ⟨ta ++ (expandEnvObjs w env2 m).2, by simp [initDiffLocalCmd, hA, hB, hta]⟩

theorem initDiffRemoteCmd_head (w : World) (localEnv remoteEnv strat : String) (m : Manager) :
    ∃ t, (initDiffRemoteCmd w localEnv remoteEnv strat m).2 =
      Event.expandEnvObjsEv localEnv :: t := by
  obtain ⟨ta, hta⟩ := expandEnvObjs_head w localEnv m
  rcases exceptCases (expandEnvObjs w localEnv m).1 with ⟨e1, hA⟩ | ⟨objs, hA⟩
  · exact ⟨ta, by simp [initDiffRemoteCmd, hA, hta]⟩
  · rcases exceptCases (w.setupClientConfig remoteEnv) with ⟨e1, hC⟩ | ⟨⟨pool, disc, ns⟩, hC⟩
    · exact ⟨ta ++ [.setupClientConfigEv remoteEnv],
        by simp [initDiffRemoteCmd, hA, hC, hta]⟩
    · exact ⟨ta ++ [.setupClientConfigEv remoteEnv],
        by simp [initDiffRemoteCmd, hA, hC, hta]⟩

theorem initDiffCmd_err_shape {w : World} {s1 : String} {os2 : Option String}
    {files : List String} {strat : String} {e : DiffError}
    (h : (initDiffCmd w s1 os2 files strat).1 = .error e) :
    e ≠ .tooFewArguments ∧ e ≠ .tooManyArguments := by
  cases os2 with
  | none =>
    have h' : (initDiffSingleEnv w s1 strat files).1 = .error e := h
    rcases initDiffSingleEnv_err h' with hq | ⟨s, hq⟩ <;> subst hq <;> exact ⟨nofun, nofun⟩
  | some fq2 =>
    rcases splitN2_shape s1 with ⟨x1, hx1⟩ | ⟨p1, r1, hp1⟩
    · rw [initDiffCmd_invalid_core (Or.inl (Or.inl (by rw [hx1]; simp)))] at h
      simp at h
      subst h
      exact ⟨nofun, nofun⟩
    · by_cases hk1 : p1 = "local" ∨ p1 = "remote"
      · rcases splitN2_shape fq2 with ⟨x2, hx2⟩ | ⟨p2, r2, hp2⟩
        · rw [initDiffCmd_invalid_core (Or.inr (Or.inl (by rw [hx2]; simp)))] at h
          simp at h
          subst h
          exact ⟨nofun, nofun⟩
        · by_cases hk2 : p2 = "local" ∨ p2 = "remote"
          · cases files with
            | cons f fs =>
              rw [initDiffCmd_filter_eq hp1 hp2 hk1 hk2 (by simp)] at h
              simp at h
              subst h
              exact ⟨nofun, nofun⟩
            | nil =>
              rcases exceptCases w.metadataFind with ⟨e', hm⟩ | ⟨m, hm⟩
              · have heq : initDiffCmd w s1 (some fq2) [] strat =
                    (.error (.collaborator e'), [.metadataFindEv]) :=
                  initDiffCmd_find_err hp1 hp2 hk1 hk2 hm
                rw [heq] at h
                simp at h
                subst h
                exact ⟨nofun, nofun⟩
              · rcases hk1 with hk1 | hk1 <;> rcases hk2 with hk2 | hk2 <;>
                  subst hk1 <;> subst hk2
                · have heq : initDiffCmd w s1 (some fq2) [] strat =
                      prependTrace [.metadataFindEv] (initDiffLocalCmd w r1 r2 strat m) :=
                    initDiffCmd_local_eq hp1 hp2 hm
                  rw [heq] at h
                  simp [prependTrace] at h
                  obtain ⟨s, hs⟩ := initDiffLocalCmd_err h
                  subst hs
                  exact ⟨nofun, nofun⟩
                · have heq : initDiffCmd w s1 (some fq2) [] strat =
                      prependTrace [.metadataFindEv] (initDiffRemoteCmd w r1 r2 strat m) :=
                    initDiffCmd_mixed_eq hp1 hp2 hm
                  rw [heq] at h
                  simp [prependTrace] at h
                  obtain ⟨s, hs⟩ := initDiffRemoteCmd_err h
                  subst hs
                  exact ⟨nofun, nofun⟩
                · have heq : initDiffCmd w s1 (some fq2) [] strat =
                      prependTrace [.metadataFindEv] (initDiffRemoteCmd w r2 r1 strat m) :=
                    initDiffCmd_mixed_eq' hp1 hp2 hm
                  rw [heq] at h
                  simp [prependTrace] at h
                  obtain ⟨s, hs⟩ := initDiffRemoteCmd_err h
                  subst hs
                  exact ⟨nofun, nofun⟩
                · have heq : initDiffCmd w s1 (some fq2) [] strat =
                      prependTrace [.metadataFindEv] (initDiffRemotesCmd w r1 r2 strat m) :=
                    initDiffCmd_remotes_eq hp1 hp2 hm
                  rw [heq] at h
                  simp [prependTrace] at h
                  obtain ⟨s, hs⟩ := initDiffRemotesCmd_err h
                  subst hs
                  exact ⟨nofun, nofun⟩
          · push_neg at hk2
            rw [initDiffCmd_invalid_core
              (Or.inr (Or.inr (by rw [hp2]; simpa using hk2)))] at h
            simp at h
            subst h
            exact ⟨nofun, nofun⟩
      · push_neg at hk1
        rw [initDiffCmd_invalid_core
          (Or.inl (Or.inr (by rw [hp1]; simpa using hk1)))] at h
        simp at h
        subst h
        exact ⟨nofun, nofun⟩

/-- The sides of the mixed (one `local:`, one `remote:`) two-locator case:
argument order does not matter, the local name is the expansion side, the
remote name is the client side. -/
theorem initDiffCmd_mixed_props (w : World) (s1 s2 n1 n2 strat : String)
    (h1 : splitN2 s1 = ["local", n1]) (h2 : splitN2 s2 = ["remote", n2]) :
    initDiffCmd w s1 (some s2) [] strat = initDiffCmd w s2 (some s1) [] strat ∧
    (∀ d, (initDiffCmd w s1 (some s2) [] strat).1 = .ok d → ∃ c, d = .remoteCmd c) ∧
    (∀ x, Event.expandEnvObjsEv x ∈ (initDiffCmd w s1 (some s2) [] strat).2 → x = n1) ∧
    (∀ x, Event.setupClientConfigEv x ∈ (initDiffCmd w s1 (some s2) [] strat).2 → x = n2) ∧
    (∀ d, (initDiffCmd w s1 (some s2) [] strat).1 = .ok d →
      Event.expandEnvObjsEv n1 ∈ (initDiffCmd w s1 (some s2) [] strat).2 ∧
      Event.setupClientConfigEv n2 ∈ (initDiffCmd w s1 (some s2) [] strat).2) := by
  rcases exceptCases w.metadataFind with ⟨e, hm⟩ | ⟨m, hm⟩
  · have ha : initDiffCmd w s1 (some s2) [] strat =
        (.error (.collaborator e), [.metadataFindEv]) :=
      initDiffCmd_find_err h1 h2 (Or.inl rfl) (Or.inr rfl) hm
    have hb : initDiffCmd w s2 (some s1) [] strat =
        (.error (.collaborator e), [.metadataFindEv]) :=
      initDiffCmd_find_err h2 h1 (Or.inr rfl) (Or.inl rfl) hm
    refine ⟨ha.trans hb.symm, ?_, ?_, ?_, ?_⟩
    · intro d hd; rw [ha] at hd; simp at hd
    · intro x hx; rw [ha] at hx; simp at hx
    · intro x hx; rw [ha] at hx; simp at hx
    · intro d hd; rw [ha] at hd; simp at hd
  · have ha : initDiffCmd w s1 (some s2) [] strat =
        prependTrace [.metadataFindEv] (initDiffRemoteCmd w n1 n2 strat m) :=
      initDiffCmd_mixed_eq h1 h2 hm
    have hb : initDiffCmd w s2 (some s1) [] strat =
        prependTrace [.metadataFindEv] (initDiffRemoteCmd w n1 n2 strat m) :=
      initDiffCmd_mixed_eq' h2 h1 hm
    refine ⟨ha.trans hb.symm, ?_, ?_, ?_, ?_⟩
    · intro d hd
      rw [ha] at hd
      simp [prependTrace] at hd
      exact initDiffRemoteCmd_ok hd
    · intro x hx
      rw [ha] at hx
      simp [prependTrace] at hx
      exact initDiffRemoteCmd_expand_name hx
    · intro x hx
      rw [ha] at hx
      simp [prependTrace] at hx
      exact initDiffRemoteCmd_client_name hx
    · intro d hd
      rw [ha] at hd ⊢
      simp [prependTrace] at hd ⊢
      exact initDiffRemoteCmd_ok_events hd

/-! ### Claim theorems -/

/-- C1 (counterexample): the claim asserts that the environment-specific
library path is prepended ahead of the shared and vendor paths, i.e. that the
evaluator receives `[environment lib, vendor, shared lib, caller...]`.  On a
concrete world the evaluator invocation recorded in the trace receives
`["lib", "vendor", "envlib/dev", "callerpath"]` — shared lib first,
environment lib third — and not the claimed order. -/
theorem c1_path_order_counterexample :
    Event.evaluateEv ["lib", "vendor", "envlib/dev", "callerpath"]
        ["base=1", "params=ENV", "params=CALLER"] ["envcomp/dev"] ∈
      (expandEnvObjs okWorld "dev" okManager).2 ∧
    (Event.evaluateEv ["envlib/dev", "vendor", "lib", "callerpath"]
        ["base=1", "params=ENV", "params=CALLER"] ["envcomp/dev"] ∉
      (expandEnvObjs okWorld "dev" okManager).2) ∧
    ["lib", "vendor", "envlib/dev", "callerpath"] ≠
      ["envlib/dev", "vendor", "lib", "callerpath"] :=
  ⟨by decide, by decide, by decide⟩

/-- C1 (amended): for every environment name, manifest expansion supplies the
search paths to the template evaluator in the order
`[shared lib, vendor, environment lib]` followed by the caller-provided
paths — the environment-specific library path is the last of the three
project paths, placed immediately ahead of the caller-provided ones — and the
single entry file is the environment component path. -/
theorem c1_path_order (w : World) (env : String) (m : Manager) (exp : Expander)
    (jp codes fs : List String)
    (hexp : w.newExpander = .ok exp)
    (hEv : Event.evaluateEv jp codes fs ∈ (expandEnvObjs w env m).2) :
    jp = [(m.libPaths env).libPath, (m.libPaths env).vendorPath,
          (m.libPaths env).envLibPath] ++ exp.flagJpath ∧
    fs = [(m.libPaths env).envComponentPath] := by
  obtain ⟨exp', cp, base, hN, _, _, hjp, _, hfs⟩ := expandEnvObjs_evaluateEv hEv
  rw [hexp] at hN
  injection hN with hh
  subst hh
  exact ⟨hjp, hfs⟩

/-- Witness for the amended C1 theorem at a concrete world. -/
theorem c1_path_order_witness :
    (okWorld.newExpander =
      .ok { flagJpath := ["callerpath"], extCodes := ["params=CALLER"] }) ∧
    (["lib", "vendor", "envlib/dev", "callerpath"] =
        [(okManager.libPaths "dev").libPath, (okManager.libPaths "dev").vendorPath,
         (okManager.libPaths "dev").envLibPath] ++
          (Expander.mk ["callerpath"] ["params=CALLER"]).flagJpath ∧
      ["envcomp/dev"] = [(okManager.libPaths "dev").envComponentPath]) :=
  ⟨rfl, c1_path_order okWorld "dev" okManager
    { flagJpath := ["callerpath"], extCodes := ["params=CALLER"] }
    ["lib", "vendor", "envlib/dev", "callerpath"]
    ["base=1", "params=ENV", "params=CALLER"] ["envcomp/dev"] rfl (by decide)⟩

/-- C3: for every environment name, the external code fragments are supplied
to the evaluator in the fixed order `[base object, environment parameters]`
followed by the caller-provided external codes, and — under the spec-modelled
resolution in which environment parameters take precedence over anything
injected later — if the environment-parameter fragment and a caller-supplied
fragment bind the same name (not also bound by the base object), the
environment parameter's value wins. -/
theorem c3_ext_code_order (w : World) (env : String) (m : Manager) (exp : Expander)
    (jp codes fs : List String)
    (hexp : w.newExpander = .ok exp)
    (hEv : Event.evaluateEv jp codes fs ∈ (expandEnvObjs w env m).2) :
    ∃ base,
      codes = [base, w.importParams (m.libPaths env).envParamsPath] ++ exp.extCodes ∧
      ∀ n, extCodeKey base ≠ n →
        extCodeKey (w.importParams (m.libPaths env).envParamsPath) = n →
        (∃ c ∈ exp.extCodes, extCodeKey c = n) →
        lookupExtCode codes n =
          some (extCodeValue (w.importParams (m.libPaths env).envParamsPath)) := by
  obtain ⟨exp', cp, base, hN, _, _, _, hcodes, _⟩ := expandEnvObjs_evaluateEv hEv
  rw [hexp] at hN
  injection hN with hh
  subst hh
  refine ⟨base, hcodes, ?_⟩
  intro n hbase hparams _
  have hb : (extCodeKey base == n) = false := by simp [hbase]
  have hp : (extCodeKey (w.importParams (m.libPaths env).envParamsPath) == n) = true := by
    simp [hparams]
  rw [hcodes]
  simp [lookupExtCode, List.find?, hb, hp]

/-- Witness for C3 at a concrete world: the caller also binds `params`, but
the environment-parameter fragment `params=ENV` wins. -/
theorem c3_ext_code_order_witness :
    lookupExtCode ["base=1", "params=ENV", "params=CALLER"] "params" = some "ENV" := by
  obtain ⟨base, hcodes, hwin⟩ := c3_ext_code_order okWorld "dev" okManager
    { flagJpath := ["callerpath"], extCodes := ["params=CALLER"] }
    ["lib", "vendor", "envlib/dev", "callerpath"]
    ["base=1", "params=ENV", "params=CALLER"] ["envcomp/dev"] rfl (by decide)
  have hb : base = "base=1" := by
    have := hcodes
    simp at this
    exact this.1.symm
  subst hb
  have := hwin "params" (by decide) (by decide) ⟨"params=CALLER", by decide, by decide⟩
  simpa using this

/-- C4 (counterexample): the claim asserts that a locator containing a colon
with an unrecognized first component fails in both the one-argument and the
two-argument forms; but in the one-argument form `foo:bar` is accepted whole
as the environment name and resolution succeeds. -/
theorem c4_locator_qualifier_counterexample :
    (initDiffSingleEnv okWorld "foo:bar" "subset" []).1 =
      .ok (.remoteCmd
        { diffStrategy := "subset",
          client := { name := "", apiObjects := ["obj1"], clientPool := "pool",
                      discovery := "disc", nspace := "default" } }) ∧
    splitN2 "foo:bar" = ["foo", "bar"] ∧ "foo" ≠ "local" ∧ "foo" ≠ "remote" :=
  ⟨by decide, by decide, by decide, by decide⟩

/-- C4 (amended): a raw locator containing a colon whose text before the
first colon is neither `local` nor `remote` fails the two-argument form (in
either position) with the missing-or-invalid-qualifier error and an empty
trace; in the one-argument form such a string is not rejected — the
whole string is used as the environment name for expansion. -/
theorem c4_locator_qualifier (w : World) (s s2 p r strat : String) (files : List String)
    (hs : splitN2 s = [p, r]) (hp1 : p ≠ "local") (hp2 : p ≠ "remote") :
    (initDiffCmd w s (some s2) files strat = (.error .invalidEnvQualifier, []) ∧
     initDiffCmd w s2 (some s) files strat = (.error .invalidEnvQualifier, [])) ∧
    (initDiffSingleEnv w s strat files).1 ≠ .error .qualifierNotAllowedForSingleArg ∧
    ∃ t, (initDiffSingleEnv w s strat files).2 = Event.expandEnvCmdObjsEv s files :: t := by
  have hl : strStartsWith s ("local" ++ ":") = false :=
    splitN2_not_startsWith hs hp1 (by decide)
  have hr : strStartsWith s ("remote" ++ ":") = false :=
    splitN2_not_startsWith hs hp2 (by decide)
  rw [show ("local" ++ ":" : String) = "local:" from by decide] at hl
  rw [show ("remote" ++ ":" : String) = "remote:" from by decide] at hr
  refine ⟨⟨initDiffCmd_invalid (Or.inl ⟨hl, hr⟩), initDiffCmd_invalid (Or.inr ⟨hl, hr⟩)⟩, ?_, ?_⟩
  · have hq : (strStartsWith s "remote:" || strStartsWith s "local:") = false := by
      simp [hl, hr]
    rcases exceptCases (w.expandEnvCmdObjs s files) with ⟨e1, hE⟩ | ⟨objs, hE⟩
    · simp [initDiffSingleEnv, hq, hE]
    · rcases exceptCases (w.restClientPool s) with ⟨e1, hR⟩ | ⟨⟨pool, disc⟩, hR⟩
      · simp [initDiffSingleEnv, hq, hE, hR]
      · rcases exceptCases w.nspaceFn with ⟨e1, hNs⟩ | ⟨ns, hNs⟩
        · simp [initDiffSingleEnv, hq, hE, hR, hNs]
        · simp [initDiffSingleEnv, hq, hE, hR, hNs]
  · have hq : (strStartsWith s "remote:" || strStartsWith s "local:") = false := by
      simp [hl, hr]
    rcases exceptCases (w.expandEnvCmdObjs s files) with ⟨e1, hE⟩ | ⟨objs, hE⟩
    · exact ⟨[], by simp [initDiffSingleEnv, hq, hE]⟩
    · rcases exceptCases (w.restClientPool s) with ⟨e1, hR⟩ | ⟨⟨pool, disc⟩, hR⟩
      · exact ⟨[.restClientPoolEv s], by simp [initDiffSingleEnv, hq, hE, hR]⟩
      · rcases exceptCases w.nspaceFn with ⟨e1, hNs⟩ | ⟨ns, hNs⟩
        · exact ⟨[.restClientPoolEv s, .nspaceEv], by simp [initDiffSingleEnv, hq, hE, hR, hNs]⟩
        · exact ⟨[.restClientPoolEv s, .nspaceEv], by simp [initDiffSingleEnv, hq, hE, hR, hNs]⟩

/-- Witness for the amended C4 theorem at a concrete input. -/
theorem c4_locator_qualifier_witness :
    initDiffCmd okWorld "foo:bar" (some "local:b") [] "subset" =
      (.error .invalidEnvQualifier, []) :=
  (c4_locator_qualifier okWorld "foo:bar" "local:b" "foo" "bar" "subset" []
    (by decide) (by decide) (by decide)).1.1

/-- C5: in the one-locator form, a locator carrying a `local:` or `remote:`
qualifier fails with the single-argument-qualifier error with an empty trace
(no expansion, no client construction); otherwise, on success the resolver
produces a `DiffRemoteCmd` (the SingleEnvironment target) and the trace is
exactly one manifest expansion for that name followed by a client context
(client pool and namespace) for that same name. -/
theorem c5_single_env (w : World) (env strat : String) (files : List String) :
    ((strStartsWith env "remote:" = true ∨ strStartsWith env "local:" = true) →
      initDiffSingleEnv w env strat files =
        (.error .qualifierNotAllowedForSingleArg, [])) ∧
    (strStartsWith env "remote:" = false → strStartsWith env "local:" = false →
      ∀ d, (initDiffSingleEnv w env strat files).1 = .ok d →
        (∃ c, d = .remoteCmd c) ∧
          (initDiffSingleEnv w env strat files).2 =
            [.expandEnvCmdObjsEv env files, .restClientPoolEv env, .nspaceEv]) := by
  constructor
  · intro h
    have hq : (strStartsWith env "remote:" || strStartsWith env "local:") = true := by
      rcases h with h | h <;> simp [h]
    simp [initDiffSingleEnv, hq]
  · intro h1 h2 d hd
    have hq : (strStartsWith env "remote:" || strStartsWith env "local:") = false := by
      simp [h1, h2]
    rcases exceptCases (w.expandEnvCmdObjs env files) with ⟨e1, hE⟩ | ⟨objs, hE⟩
    · simp [initDiffSingleEnv, hq, hE] at hd
    · rcases exceptCases (w.restClientPool env) with ⟨e1, hR⟩ | ⟨⟨pool, disc⟩, hR⟩
      · simp [initDiffSingleEnv, hq, hE, hR] at hd
      · rcases exceptCases w.nspaceFn with ⟨e1, hNs⟩ | ⟨ns, hNs⟩
        · simp [initDiffSingleEnv, hq, hE, hR, hNs] at hd
        · simp [initDiffSingleEnv, hq, hE, hR, hNs] at hd
          refine ⟨⟨_, hd.symm⟩, ?_⟩
          simp [initDiffSingleEnv, hq, hE, hR, hNs]

/-- Witness for C5: a qualified single argument is rejected with an empty
trace, and an unqualified one succeeds with the expected trace. -/
theorem c5_single_env_witness :
    initDiffSingleEnv okWorld "remote:dev" "subset" [] =
      (.error .qualifierNotAllowedForSingleArg, []) :=
  (c5_single_env okWorld "remote:dev" "subset" []).1 (Or.inl (by decide))

/-- C6: in the two-locator form, if either locator is not qualified with a
`local:` or `remote:` prefix, the resolver fails with the
missing-or-invalid-qualifier error and an empty trace — before `metadata.Find`,
any expansion, or any client-context construction. -/
theorem c6_unqualified_two_locators (w : World) (s1 s2 strat : String)
    (files : List String)
    (hbad : ¬(strStartsWith s1 "local:" = true ∨ strStartsWith s1 "remote:" = true) ∨
            ¬(strStartsWith s2 "local:" = true ∨ strStartsWith s2 "remote:" = true)) :
    initDiffCmd w s1 (some s2) files strat = (.error .invalidEnvQualifier, []) := by
  apply initDiffCmd_invalid
  rcases hbad with h | h
  · simp only [not_or, Bool.not_eq_true] at h
    exact Or.inl ⟨h.1, h.2⟩
  · simp only [not_or, Bool.not_eq_true] at h
    exact Or.inr ⟨h.1, h.2⟩

/-- Witness for C6 at a concrete input. -/
theorem c6_unqualified_two_locators_witness :
    initDiffCmd okWorld "dev" (some "local:b") [] "subset" =
      (.error .invalidEnvQualifier, []) :=
  c6_unqualified_two_locators okWorld "dev" "local:b" "subset" [] (Or.inl (by decide))

/-- C7 (counterexample): the claim asserts that every two-locator invocation
with a non-empty component filter fails with UnsupportedFlagCombination; but
with two unqualified locators the resolver reports the
missing-or-invalid-qualifier error instead (the qualifier check precedes the
filter check). -/
theorem c7_filter_counterexample :
    initDiffCmd okWorld "x" (some "y") ["guestbook-ui"] "subset" =
      (.error .invalidEnvQualifier, []) ∧
    DiffError.invalidEnvQualifier ≠ DiffError.unsupportedFlagCombination :=
  ⟨by decide, by decide⟩

/-- C7 (amended): for a two-locator invocation with a non-empty
component-filter list, if both locators are qualified the resolver fails with
UnsupportedFlagCombination, and if either is unqualified it fails with the
missing-or-invalid-qualifier error instead; in both cases the trace is empty,
so the failure precedes any expansion or client-context construction. -/
theorem c7_filter_rejection (w : World) (s1 s2 strat : String) (files : List String)
    (hfiles : files ≠ []) :
    ((strStartsWith s1 "local:" = true ∨ strStartsWith s1 "remote:" = true) →
     (strStartsWith s2 "local:" = true ∨ strStartsWith s2 "remote:" = true) →
      initDiffCmd w s1 (some s2) files strat = (.error .unsupportedFlagCombination, [])) ∧
    (¬(strStartsWith s1 "local:" = true ∨ strStartsWith s1 "remote:" = true) ∨
     ¬(strStartsWith s2 "local:" = true ∨ strStartsWith s2 "remote:" = true) →
      initDiffCmd w s1 (some s2) files strat = (.error .invalidEnvQualifier, [])) := by
  constructor
  · intro hq1 hq2
    have hlen : 0 < files.length := List.length_pos.mpr hfiles
    have hsp1 : ∃ k1 t1, splitN2 s1 = [k1, t1] ∧ (k1 = "local" ∨ k1 = "remote") := by
      rcases hq1 with h | h
      · obtain ⟨t, ht⟩ := strStartsWith_splitN2 (k := "local") (by decide)
          (by rw [show ("local" ++ ":" : String) = "local:" from by decide]; exact h)
        exact ⟨"local", t, ht, Or.inl rfl⟩
      · obtain ⟨t, ht⟩ := strStartsWith_splitN2 (k := "remote") (by decide)
          (by rw [show ("remote" ++ ":" : String) = "remote:" from by decide]; exact h)
        exact ⟨"remote", t, ht, Or.inr rfl⟩
    have hsp2 : ∃ k2 t2, splitN2 s2 = [k2, t2] ∧ (k2 = "local" ∨ k2 = "remote") := by
      rcases hq2 with h | h
      · obtain ⟨t, ht⟩ := strStartsWith_splitN2 (k := "local") (by decide)
          (by rw [show ("local" ++ ":" : String) = "local:" from by decide]; exact h)
        exact ⟨"local", t, ht, Or.inl rfl⟩
      · obtain ⟨t, ht⟩ := strStartsWith_splitN2 (k := "remote") (by decide)
          (by rw [show ("remote" ++ ":" : String) = "remote:" from by decide]; exact h)
        exact ⟨"remote", t, ht, Or.inr rfl⟩
    obtain ⟨k1, t1, hsp1, hk1⟩ := hsp1
    obtain ⟨k2, t2, hsp2, hk2⟩ := hsp2
    rcases hk1 with hk1 | hk1 <;> rcases hk2 with hk2 | hk2 <;> subst hk1 <;> subst hk2 <;>
      simp [initDiffCmd, hsp1, hsp2, hlen]
  · intro h
    apply initDiffCmd_invalid
    rcases h with h | h
    · simp only [not_or, Bool.not_eq_true] at h
      exact Or.inl ⟨h.1, h.2⟩
    · simp only [not_or, Bool.not_eq_true] at h
      exact Or.inr ⟨h.1, h.2⟩

/-- Witness for the amended C7 theorem: scenario D of the spec,
`["local:a", "local:b"]` with a component filter. -/
theorem c7_filter_rejection_witness :
    initDiffCmd okWorld "local:a" (some "local:b") ["guestbook-ui"] "subset" =
      (.error .unsupportedFlagCombination, []) :=
  (c7_filter_rejection okWorld "local:a" "local:b" "subset" ["guestbook-ui"]
    (by decide)).1 (Or.inl (by decide)) (Or.inl (by decide))

/-- C2: for every pair of validly qualified locators, the resolver selects
exactly the variant given by the dispatch table — local+local yields a
`DiffLocalCmd` (TwoLocalEnvironments) with the names kept in order,
remote+remote yields a `DiffRemotesCmd` (TwoRemoteEnvironments), and in the
mixed cases a `DiffRemoteCmd` (LocalVersusRemote) in which the local-kind
name is the only name ever expanded (manifest side) and the remote-kind name
is the only name a client context is built for, independently of argument
order; swapping the two arguments yields a literally equal result and
trace. -/
theorem c2_dispatch (w : World) (strat s1 s2 k1 k2 n1 n2 : String)
    (h1 : splitN2 s1 = [k1, n1]) (h2 : splitN2 s2 = [k2, n2]) :
    (k1 = "local" → k2 = "local" →
      ∀ d, (initDiffCmd w s1 (some s2) [] strat).1 = .ok d →
        ∃ c, d = .localCmd c ∧ c.env1.name = n1 ∧ c.env2.name = n2) ∧
    (k1 = "remote" → k2 = "remote" →
      ∀ d, (initDiffCmd w s1 (some s2) [] strat).1 = .ok d →
        ∃ c, d = .remotesCmd c ∧ c.clientA.name = n1 ∧ c.clientB.name = n2) ∧
    (k1 = "local" → k2 = "remote" →
      initDiffCmd w s1 (some s2) [] strat = initDiffCmd w s2 (some s1) [] strat ∧
      (∀ d, (initDiffCmd w s1 (some s2) [] strat).1 = .ok d → ∃ c, d = .remoteCmd c) ∧
      (∀ x, Event.expandEnvObjsEv x ∈ (initDiffCmd w s1 (some s2) [] strat).2 → x = n1) ∧
      (∀ x, Event.setupClientConfigEv x ∈ (initDiffCmd w s1 (some s2) [] strat).2 → x = n2) ∧
      (∀ d, (initDiffCmd w s1 (some s2) [] strat).1 = .ok d →
        Event.expandEnvObjsEv n1 ∈ (initDiffCmd w s1 (some s2) [] strat).2 ∧
        Event.setupClientConfigEv n2 ∈ (initDiffCmd w s1 (some s2) [] strat).2)) ∧
    (k1 = "remote" → k2 = "local" →
      initDiffCmd w s1 (some s2) [] strat = initDiffCmd w s2 (some s1) [] strat ∧
      (∀ d, (initDiffCmd w s1 (some s2) [] strat).1 = .ok d → ∃ c, d = .remoteCmd c) ∧
      (∀ x, Event.expandEnvObjsEv x ∈ (initDiffCmd w s1 (some s2) [] strat).2 → x = n2) ∧
      (∀ x, Event.setupClientConfigEv x ∈ (initDiffCmd w s1 (some s2) [] strat).2 → x = n1) ∧
      (∀ d, (initDiffCmd w s1 (some s2) [] strat).1 = .ok d →
        Event.expandEnvObjsEv n2 ∈ (initDiffCmd w s1 (some s2) [] strat).2 ∧
        Event.setupClientConfigEv n1 ∈ (initDiffCmd w s1 (some s2) [] strat).2)) := by
  refine ⟨?_, ?_, ?_, ?_⟩
  · intro hk1 hk2 d hd
    subst hk1; subst hk2
    rcases exceptCases w.metadataFind with ⟨e, hm⟩ | ⟨m, hm⟩
    · have heq : initDiffCmd w s1 (some s2) [] strat =
          (.error (.collaborator e), [.metadataFindEv]) :=
        initDiffCmd_find_err h1 h2 (Or.inl rfl) (Or.inl rfl) hm
      rw [heq] at hd
      simp at hd
    · have heq : initDiffCmd w s1 (some s2) [] strat =
          prependTrace [.metadataFindEv] (initDiffLocalCmd w n1 n2 strat m) :=
        initDiffCmd_local_eq h1 h2 hm
      rw [heq] at hd
      simp [prependTrace] at hd
      exact initDiffLocalCmd_ok hd
  · intro hk1 hk2 d hd
    subst hk1; subst hk2
    rcases exceptCases w.metadataFind with ⟨e, hm⟩ | ⟨m, hm⟩
    · have heq : initDiffCmd w s1 (some s2) [] strat =
          (.error (.collaborator e), [.metadataFindEv]) :=
        initDiffCmd_find_err h1 h2 (Or.inr rfl) (Or.inr rfl) hm
      rw [heq] at hd
      simp at hd
    · have heq : initDiffCmd w s1 (some s2) [] strat =
          prependTrace [.metadataFindEv] (initDiffRemotesCmd w n1 n2 strat m) :=
        initDiffCmd_remotes_eq h1 h2 hm
      rw [heq] at hd
      simp [prependTrace] at hd
      exact initDiffRemotesCmd_ok hd
  · intro hk1 hk2
    subst hk1; subst hk2
    exact initDiffCmd_mixed_props w s1 s2 n1 n2 strat h1 h2
  · intro hk1 hk2
    subst hk1; subst hk2
    obtain ⟨hswap, hok, hexp, hcli, hevs⟩ :=
      initDiffCmd_mixed_props w s2 s1 n2 n1 strat h2 h1
    refine ⟨hswap.symm, ?_, ?_, ?_, ?_⟩
    · intro d hd
      exact hok d (by rw [hswap]; exact hd)
    · intro x hx
      exact hexp x (by rw [hswap]; exact hx)
    · intro x hx
      exact hcli x (by rw [hswap]; exact hx)
    · intro d hd
      have hres := hevs d (by rw [hswap]; exact hd)
      rw [hswap] at hres
      exact hres

/-- Witness for C2 at `local:a` / `remote:b`: argument order does not change
the resolved target. -/
theorem c2_dispatch_witness :
    splitN2 "local:a" = ["local", "a"] ∧ splitN2 "remote:b" = ["remote", "b"] ∧
    initDiffCmd okWorld "local:a" (some "remote:b") [] "subset" =
      initDiffCmd okWorld "remote:b" (some "local:a") [] "subset" :=
  ⟨by decide, by decide,
    ((c2_dispatch okWorld "subset" "local:a" "remote:b" "local" "remote" "a" "b"
      (by decide) (by decide)).2.2.1 rfl rfl).1⟩

/-- C8: the command accepts only one or two positional arguments — zero
arguments and more than two arguments each fail immediately with the
corresponding argument-count error and an empty trace (no working-directory
lookup, no resolution, no `Run`), and an invocation with one or two arguments
is never rejected with an argument-count error. -/
theorem c8_arg_count (w : World) (args : List String) :
    (args = [] → diffCmdRunE w args = (.error .tooFewArguments, [])) ∧
    (args.length > 2 → diffCmdRunE w args = (.error .tooManyArguments, [])) ∧
    (args.length = 1 ∨ args.length = 2 →
      (diffCmdRunE w args).1 ≠ .error .tooFewArguments ∧
      (diffCmdRunE w args).1 ≠ .error .tooManyArguments) := by
  refine ⟨?_, ?_, ?_⟩
  · intro h
    subst h
    rfl
  · intro h
    have h0 : (args.length == 0) = false := by
      simp only [beq_eq_false_iff_ne]
      omega
    simp [diffCmdRunE, h0, h]
  · intro hlen
    have h0 : (args.length == 0) = false := by
      simp only [beq_eq_false_iff_ne]
      omega
    have h2 : ¬ args.length > 2 := by omega
    rcases exceptCases w.getwd with ⟨e, hg⟩ | ⟨wd, hg⟩
    · simp [diffCmdRunE, h0, h2, hg]
    · rcases exceptCases w.componentNames with ⟨e, hcn⟩ | ⟨cns, hcn⟩
      · simp [diffCmdRunE, h0, h2, hg, hcn]
      · rcases exceptCases w.diffStrategyFlag with ⟨e, hds⟩ | ⟨ds, hds⟩
        · simp [diffCmdRunE, h0, h2, hg, hcn, hds]
        · rcases exceptCases
              (initDiffCmd w (args[0]?.getD "")
                (if 1 < args.length then some (args[1]?.getD "") else none) cns ds).1 with
            ⟨e, hic⟩ | ⟨c, hic⟩
          · have hne := initDiffCmd_err_shape hic
            simp [diffCmdRunE, h0, h2, hg, hcn, hds, hic]
            exact ⟨fun hh => hne.1 hh, fun hh => hne.2 hh⟩
          · rcases exceptCases (w.run c) with ⟨e, hr⟩ | ⟨u, hr⟩
            · simp [diffCmdRunE, h0, h2, hg, hcn, hds, hic, hr]
            · simp [diffCmdRunE, h0, h2, hg, hcn, hds, hic, hr]

/-- Witness for C8: zero arguments and three arguments are both rejected with
an empty trace, and a one-argument invocation is not rejected for its count. -/
theorem c8_arg_count_witness :
    diffCmdRunE okWorld [] = (.error .tooFewArguments, []) ∧
    diffCmdRunE okWorld ["a", "b", "c"] = (.error .tooManyArguments, []) :=
  ⟨(c8_arg_count okWorld []).1 rfl,
   (c8_arg_count okWorld ["a", "b", "c"]).2.1 (by decide)⟩

/-- C9: with two `remote:`-qualified locators (the TwoRemoteEnvironments
variant) the resolver still expands both environments locally: on success the
trace contains expansions for both names as well as both client contexts; if
expansion of either name fails, that error is the result and no client
context is ever built; and whenever any client context appears in the trace,
both expansions already do. -/
theorem c9_remote_remote (w : World) (s1 s2 a b strat : String) (m : Manager)
    (h1 : splitN2 s1 = ["remote", a]) (h2 : splitN2 s2 = ["remote", b])
    (hm : w.metadataFind = .ok m) :
    (∀ d, (initDiffCmd w s1 (some s2) [] strat).1 = .ok d →
      Event.expandEnvObjsEv a ∈ (initDiffCmd w s1 (some s2) [] strat).2 ∧
      Event.expandEnvObjsEv b ∈ (initDiffCmd w s1 (some s2) [] strat).2 ∧
      Event.setupClientConfigEv a ∈ (initDiffCmd w s1 (some s2) [] strat).2 ∧
      Event.setupClientConfigEv b ∈ (initDiffCmd w s1 (some s2) [] strat).2) ∧
    (∀ e, (expandEnvObjs w a m).1 = .error e →
      (initDiffCmd w s1 (some s2) [] strat).1 = .error e ∧
      ∀ x, Event.setupClientConfigEv x ∉ (initDiffCmd w s1 (some s2) [] strat).2) ∧
    (∀ objs e, (expandEnvObjs w a m).1 = .ok objs → (expandEnvObjs w b m).1 = .error e →
      (initDiffCmd w s1 (some s2) [] strat).1 = .error e ∧
      ∀ x, Event.setupClientConfigEv x ∉ (initDiffCmd w s1 (some s2) [] strat).2) ∧
    (∀ x, Event.setupClientConfigEv x ∈ (initDiffCmd w s1 (some s2) [] strat).2 →
      Event.expandEnvObjsEv a ∈ (initDiffCmd w s1 (some s2) [] strat).2 ∧
      Event.expandEnvObjsEv b ∈ (initDiffCmd w s1 (some s2) [] strat).2) := by
  have heq : initDiffCmd w s1 (some s2) [] strat =
      prependTrace [.metadataFindEv] (initDiffRemotesCmd w a b strat m) :=
    initDiffCmd_remotes_eq h1 h2 hm
  refine ⟨?_, ?_, ?_, ?_⟩
  · intro d hd
    rw [heq] at hd ⊢
    simp [prependTrace] at hd ⊢
    exact initDiffRemotesCmd_ok_events hd
  · intro e he
    rw [heq]
    constructor
    · simp [prependTrace, initDiffRemotesCmd_abort1 he]
    · intro x
      simp [prependTrace, initDiffRemotesCmd_abort1 he]
      exact expandEnvObjs_no_client w a m x
  · intro objs e hoa he
    rw [heq]
    constructor
    · simp [prependTrace, initDiffRemotesCmd_abort2 hoa he]
    · intro x
      simp [prependTrace, initDiffRemotesCmd_abort2 hoa he]
      exact ⟨expandEnvObjs_no_client w a m x, expandEnvObjs_no_client w b m x⟩
  · intro x hx
    rw [heq] at hx ⊢
    simp [prependTrace] at hx ⊢
    exact initDiffRemotesCmd_client_mem hx

/-- Witness for C9 at `remote:x` / `remote:y` in a successful world. -/
theorem c9_remote_remote_witness :
    Event.expandEnvObjsEv "x" ∈
      (initDiffCmd okWorld "remote:x" (some "remote:y") [] "subset").2 ∧
    Event.expandEnvObjsEv "y" ∈
      (initDiffCmd okWorld "remote:x" (some "remote:y") [] "subset").2 ∧
    Event.setupClientConfigEv "x" ∈
      (initDiffCmd okWorld "remote:x" (some "remote:y") [] "subset").2 ∧
    Event.setupClientConfigEv "y" ∈
      (initDiffCmd okWorld "remote:x" (some "remote:y") [] "subset").2 :=
  (c9_remote_remote okWorld "remote:x" "remote:y" "x" "y" "subset" okManager
    (by decide) (by decide) rfl).1
    (.remotesCmd
      { diffStrategy := "subset",
        clientA := { name := "x", apiObjects := ["obj1"], clientPool := "pool",
                     discovery := "disc", nspace := "ns" },
        clientB := { name := "y", apiObjects := ["obj1"], clientPool := "pool",
                     discovery := "disc", nspace := "ns" } })
    (by decide)

/-- C10: in the two-locator form a locator that is only a valid qualifier and
a colon (here `local:`) passes validation — the resolver never reports the
missing-or-invalid-qualifier error — and the empty string becomes the
environment name: once `metadata.Find` succeeds, the trace contains the
metadata lookup and an expansion for the name `""`. -/
theorem c10_empty_env_name (w : World) (strat s2 b : String)
    (h2 : splitN2 s2 = ["local", b] ∨ splitN2 s2 = ["remote", b]) :
    (initDiffCmd w "local:" (some s2) [] strat).1 ≠ .error .invalidEnvQualifier ∧
    (∀ m, w.metadataFind = .ok m →
      Event.metadataFindEv ∈ (initDiffCmd w "local:" (some s2) [] strat).2 ∧
      Event.expandEnvObjsEv "" ∈ (initDiffCmd w "local:" (some s2) [] strat).2) := by
  have h1 : splitN2 "local:" = ["local", ""] := by decide
  rcases h2 with h2 | h2
  · constructor
    · rcases exceptCases w.metadataFind with ⟨e, hm⟩ | ⟨m, hm⟩
      · have heq : initDiffCmd w "local:" (some s2) [] strat =
            (.error (.collaborator e), [.metadataFindEv]) :=
          initDiffCmd_find_err h1 h2 (Or.inl rfl) (Or.inl rfl) hm
        rw [heq]
        simp
      · have heq : initDiffCmd w "local:" (some s2) [] strat =
            prependTrace [.metadataFindEv] (initDiffLocalCmd w "" b strat m) :=
          initDiffCmd_local_eq h1 h2 hm
        rw [heq]
        simp only [prependTrace]
        intro hc
        obtain ⟨s, hs⟩ := initDiffLocalCmd_err hc
        exact DiffError.noConfusion hs
    · intro m hm
      have heq : initDiffCmd w "local:" (some s2) [] strat =
          prependTrace [.metadataFindEv] (initDiffLocalCmd w "" b strat m) :=
        initDiffCmd_local_eq h1 h2 hm
      rw [heq]
      obtain ⟨t, ht⟩ := initDiffLocalCmd_head w "" b strat m
      simp [prependTrace, ht]
  · constructor
    · rcases exceptCases w.metadataFind with ⟨e, hm⟩ | ⟨m, hm⟩
      · have heq : initDiffCmd w "local:" (some s2) [] strat =
            (.error (.collaborator e), [.metadataFindEv]) :=
          initDiffCmd_find_err h1 h2 (Or.inl rfl) (Or.inr rfl) hm
        rw [heq]
        simp
      · have heq : initDiffCmd w "local:" (some s2) [] strat =
            prependTrace [.metadataFindEv] (initDiffRemoteCmd w "" b strat m) :=
          initDiffCmd_mixed_eq h1 h2 hm
        rw [heq]
        simp only [prependTrace]
        intro hc
        obtain ⟨s, hs⟩ := initDiffRemoteCmd_err hc
        exact DiffError.noConfusion hs
    · intro m hm
      have heq : initDiffCmd w "local:" (some s2) [] strat =
          prependTrace [.metadataFindEv] (initDiffRemoteCmd w "" b strat m) :=
        initDiffCmd_mixed_eq h1 h2 hm
      rw [heq]
      obtain ⟨t, ht⟩ := initDiffRemoteCmd_head w "" b strat m
      simp [prependTrace, ht]

/-- Witness for C10 at `local:` / `local:b`. -/
theorem c10_empty_env_name_witness :
    (initDiffCmd okWorld "local:" (some "local:b") [] "subset").1 ≠
      .error .invalidEnvQualifier ∧
    Event.expandEnvObjsEv "" ∈
      (initDiffCmd okWorld "local:" (some "local:b") [] "subset").2 := by
  have h := c10_empty_env_name okWorld "subset" "local:b" "b" (Or.inl (by decide))
  exact ⟨h.1, (h.2 okManager rfl).2⟩

end KsDiff
